import Mathlib

/-!
Verification of the training-orchestration core of a GPT-2 reproduction
(`src/gpt_model.py`, `src/train_gpt2.py`) against its natural-language
specification.  Python code is shallowly embedded: token tensors become
lists of naturals, float tensors become lists of rationals (with the
transcendental scalar kernels abstracted), stateful objects become
explicit state-passing functions, and fallible code returns `Option` or
`Except`.
-/

set_option maxRecDepth 10000

/-! ## Sharded sequential data feeder (`DataLoaderLite`, gpt_model.py lines 222-266)

A shard file is modelled by the list of token ids that `load_tokens`
would produce from it.  The loader state carries the configuration
fields and the mutable fields `current_shard`, `tokens`,
`current_position` exactly as the Python object does. -/

structure DataLoaderLite where
  B : ℕ
  T : ℕ
  process_rank : ℕ
  num_processes : ℕ
  shards : List (List ℕ)
  current_shard : ℕ
  tokens : List ℕ
  current_position : ℕ
deriving DecidableEq

/-- `reset` (gpt_model.py lines 247-251): `current_shard = 0`,
`tokens = load_tokens(shards[0])`, `current_position = B * T * process_rank`. -/
def DataLoaderLite.reset (s : DataLoaderLite) : DataLoaderLite :=
  { s with
    current_shard := 0
    tokens := s.shards.getD 0 []
    current_position := s.B * s.T * s.process_rank }

/-- Models `tensor.view(B, T)` on a flat list of `B * T` tokens:
row `i` is the slice `[i*T, (i+1)*T)`. -/
def view2 (B T : ℕ) (l : List ℕ) : List (List ℕ) :=
  (List.range B).map (fun i => (l.drop (i * T)).take T)

/-- One batch: the `(x, y)` pair of `B × T` token matrices. -/
abbrev Batch := List (List ℕ) × List (List ℕ)

/-- The slice of `next_batch` (gpt_model.py lines 253-257):
`buf = tokens[current_position : current_position + B*T+1]`;
`x = buf[:-1].view(B, T)`; `y = buf[1:].view(B, T)`.  The `view` call
raises unless `buf` holds exactly `B*T+1` tokens, modelled by `none`. -/
def DataLoaderLite.batchOf (s : DataLoaderLite) : Option Batch :=
  let buf := (s.tokens.drop s.current_position).take (s.B * s.T + 1)
  if buf.length = s.B * s.T + 1 then
    some (view2 s.B s.T buf.dropLast, view2 s.B s.T (buf.drop 1))
  else none

def DataLoaderLite.advance (s : DataLoaderLite) : DataLoaderLite :=
  if s.current_position + s.B * s.T * s.num_processes
      + (s.B * s.T * s.num_processes + 1) > s.tokens.length then
    { s with
      current_shard := (s.current_shard + 1) % s.shards.length
      tokens := s.shards.getD ((s.current_shard + 1) % s.shards.length) []
      current_position := s.B * s.T * s.process_rank }
  else
    { s with current_position := s.current_position + s.B * s.T * s.num_processes }

/-- One `next_batch()` call (gpt_model.py lines 253-266): the batch is sliced
from the pre-call state, then `current_position += B*T*num_processes`, and if
`current_position + (B*T*num_processes + 1) > len(tokens)` the loader moves
to shard `(current_shard + 1) % len(shards)`, loads it, and resets
`current_position` to `B*T*process_rank` (`advance`). -/
def DataLoaderLite.next_batch (s : DataLoaderLite) : Option Batch × DataLoaderLite :=
  (s.batchOf, s.advance)

/-- The loader state after `k` further `next_batch` calls. -/
def DataLoaderLite.stateAfter (s : DataLoaderLite) : ℕ → DataLoaderLite
  | 0 => s
  | k + 1 => ((s.stateAfter k).next_batch).2

/-- The batch returned by the `k`-th `next_batch` call (1-indexed) issued on `s`. -/
def DataLoaderLite.kthBatch (s : DataLoaderLite) (k : ℕ) : Option Batch :=
  ((s.stateAfter (k - 1)).next_batch).1

/-- The list of the batches returned by `k` successive `next_batch` calls. -/
def DataLoaderLite.trace (s : DataLoaderLite) : ℕ → List (Option Batch)
  | 0 => []
  | k + 1 => (s.next_batch).1 :: DataLoaderLite.trace (s.next_batch).2 k

/-! ### List index lemmas for the batch window -/

lemma getD_take_of_lt {l : List ℕ} {n j : ℕ} (hj : j < n) (d : ℕ) :
    (l.take n).getD j d = l.getD j d := by
  simp [List.getD_eq_getElem?_getD, List.getElem?_take, hj]

lemma getD_drop (l : List ℕ) (n j d : ℕ) :
    (l.drop n).getD j d = l.getD (n + j) d := by
  simp [List.getD_eq_getElem?_getD, List.getElem?_drop]

lemma view2_length (B T : ℕ) (l : List ℕ) : (view2 B T l).length = B := by
  simp [view2]

lemma view2_mem_length {B T : ℕ} {l : List ℕ} (hl : B * T ≤ l.length)
    {r : List ℕ} (hr : r ∈ view2 B T l) : r.length = T := by
  rcases List.mem_map.1 hr with ⟨i, hi, rfl⟩
  rw [List.mem_range] at hi
  have hfit : i * T + T ≤ l.length := by
    calc i * T + T = (i + 1) * T := by ring
    _ ≤ B * T := Nat.mul_le_mul_right _ hi
    _ ≤ l.length := hl
  simp only [List.length_take, List.length_drop]
  omega

lemma view2_getD {B T : ℕ} (l : List ℕ) {i j : ℕ} (hi : i < B) (hj : j < T) :
    ((view2 B T l).getD i []).getD j 0 = l.getD (i * T + j) 0 := by
  have h1 : (view2 B T l).getD i [] = (l.drop (i * T)).take T := by
    simp [view2, List.getD_eq_getElem?_getD, List.getElem?_map, List.getElem?_range, hi]
  rw [h1, getD_take_of_lt hj, getD_drop]

lemma getD_dropLast_of_lt {l : List ℕ} {j : ℕ} (hj : j + 1 < l.length) (d : ℕ) :
    l.dropLast.getD j d = l.getD j d := by
  rw [List.dropLast_eq_take]
  exact getD_take_of_lt (by omega) d

/-- Full characterization of a `next_batch` call whose window is in bounds:
the batch exists, has `B` rows of `T` tokens on each side, and its entries
are the contiguous window of `B*T+1` tokens starting at `current_position`,
with `y` the one-position shift of `x`. -/
lemma next_batch_window (s : DataLoaderLite)
    (hlen : s.current_position + (s.B * s.T + 1) ≤ s.tokens.length) :
    ∃ x y, (s.next_batch).1 = some (x, y) ∧
      x.length = s.B ∧ y.length = s.B ∧
      (∀ r ∈ x, r.length = s.T) ∧ (∀ r ∈ y, r.length = s.T) ∧
      (∀ i j, i < s.B → j < s.T →
        (x.getD i []).getD j 0 = s.tokens.getD (s.current_position + (i * s.T + j)) 0 ∧
        (y.getD i []).getD j 0 = s.tokens.getD (s.current_position + (i * s.T + j) + 1) 0) := by
  have hbuf : ((s.tokens.drop s.current_position).take (s.B * s.T + 1)).length
      = s.B * s.T + 1 := by
    simp only [List.length_take, List.length_drop]
    omega
  refine ⟨view2 s.B s.T ((s.tokens.drop s.current_position).take (s.B * s.T + 1)).dropLast,
    view2 s.B s.T (((s.tokens.drop s.current_position).take (s.B * s.T + 1)).drop 1),
    ?_, ?_, ?_, ?_, ?_, ?_⟩
  · simp only [DataLoaderLite.next_batch, DataLoaderLite.batchOf, hbuf, if_true]
  · exact view2_length _ _ _
  · exact view2_length _ _ _
  · intro r hr
    refine view2_mem_length ?_ hr
    simp only [List.length_dropLast, hbuf]
    omega
  · intro r hr
    refine view2_mem_length ?_ hr
    simp only [List.length_drop, hbuf]
    omega
  · intro i j hi hj
    have hij : i * s.T + j + 1 < s.B * s.T + 1 := by
      have h1 : i * s.T + s.T = (i + 1) * s.T := by ring
      have h2 : (i + 1) * s.T ≤ s.B * s.T := Nat.mul_le_mul_right _ hi
      omega
    constructor
    · rw [view2_getD _ hi hj, getD_dropLast_of_lt (by rw [hbuf]; omega),
        getD_take_of_lt (by omega), getD_drop]
    · rw [view2_getD _ hi hj, getD_drop, getD_take_of_lt (by omega), getD_drop]
      congr 1
      omega

/-- Claim C2: every in-bounds `next_batch()` call returns a pair `(x, y)` of
`B × T` integer matrices drawn from the contiguous window of `B*T+1` tokens
starting at `current_position` of the active shard, with `y[i][j]` equal to
the token immediately following `x[i][j]` in that window. -/
theorem next_batch_window_spec (s : DataLoaderLite)
    (hlen : s.current_position + (s.B * s.T + 1) ≤ s.tokens.length) :
    ∃ x y, (s.next_batch).1 = some (x, y) ∧
      x.length = s.B ∧ y.length = s.B ∧
      (∀ r ∈ x, r.length = s.T) ∧ (∀ r ∈ y, r.length = s.T) ∧
      (∀ i j, i < s.B → j < s.T →
        (x.getD i []).getD j 0 = s.tokens.getD (s.current_position + (i * s.T + j)) 0 ∧
        (y.getD i []).getD j 0 = s.tokens.getD (s.current_position + (i * s.T + j) + 1) 0) :=
  next_batch_window s hlen

/-- A concrete 2-row, 2-column loader on a 10-token shard, exercising
`next_batch_window_spec` at a checkable input. -/
def demoLoader : DataLoaderLite :=
  { B := 2, T := 2, process_rank := 0, num_processes := 1,
    shards := [List.range 10], current_shard := 0,
    tokens := List.range 10, current_position := 0 }

theorem next_batch_window_spec_witness :
    demoLoader.current_position + (demoLoader.B * demoLoader.T + 1)
        ≤ demoLoader.tokens.length ∧
    ∃ x y, (demoLoader.next_batch).1 = some (x, y) ∧
      x.length = demoLoader.B ∧ y.length = demoLoader.B ∧
      (∀ r ∈ x, r.length = demoLoader.T) ∧ (∀ r ∈ y, r.length = demoLoader.T) ∧
      (∀ i j, i < demoLoader.B → j < demoLoader.T →
        (x.getD i []).getD j 0
            = demoLoader.tokens.getD (demoLoader.current_position + (i * demoLoader.T + j)) 0 ∧
        (y.getD i []).getD j 0
            = demoLoader.tokens.getD (demoLoader.current_position + (i * demoLoader.T + j) + 1) 0) :=
  ⟨by decide, next_batch_window_spec demoLoader (by decide)⟩

/-! ### Claim C1: the shard-wrap policy -/

lemma stateAfter_add (s : DataLoaderLite) (a b : ℕ) :
    s.stateAfter (a + b) = (s.stateAfter a).stateAfter b := by
  induction b with
  | zero => rfl
  | succ n ih =>
    have he : a + (n + 1) = (a + n) + 1 := by omega
    rw [he]
    show ((s.stateAfter (a + n)).next_batch).2
        = (((s.stateAfter a).stateAfter n).next_batch).2
    rw [ih]

lemma next_batch_preserves_config (s : DataLoaderLite) :
    (s.next_batch).2.B = s.B ∧ (s.next_batch).2.T = s.T ∧
    (s.next_batch).2.process_rank = s.process_rank ∧
    (s.next_batch).2.num_processes = s.num_processes ∧
    (s.next_batch).2.shards = s.shards := by
  show s.advance.B = _ ∧ s.advance.T = _ ∧ s.advance.process_rank = _
      ∧ s.advance.num_processes = _ ∧ s.advance.shards = _
  unfold DataLoaderLite.advance
  split
  · exact ⟨rfl, rfl, rfl, rfl, rfl⟩
  · exact ⟨rfl, rfl, rfl, rfl, rfl⟩

lemma next_batch_wrap_state (s : DataLoaderLite)
    (hw : s.tokens.length <
      s.current_position + s.B * s.T * s.num_processes + (s.B * s.T * s.num_processes + 1)) :
    (s.next_batch).2.current_shard = (s.current_shard + 1) % s.shards.length ∧
    (s.next_batch).2.current_position = s.B * s.T * s.process_rank ∧
    (s.next_batch).2.tokens = s.shards.getD ((s.current_shard + 1) % s.shards.length) [] := by
  show s.advance.current_shard = _ ∧ s.advance.current_position = _ ∧ s.advance.tokens = _
  unfold DataLoaderLite.advance
  split
  next h => exact ⟨rfl, rfl, rfl⟩
  next h => exact absurd hw h

/-- The two-shard example of the spec scenario: `B=4, T=8, world_size=1`,
rank 0, shards of 1000 tokens each.  Shard 0 holds tokens `0..999` and
shard 1 holds tokens `1000..1999`, so every token identifies its shard
and offset. -/
def wrapLoader : DataLoaderLite :=
  { B := 4, T := 8, process_rank := 0, num_processes := 1,
    shards := [List.range 1000, (List.range 1000).map (fun t => t + 1000)],
    current_shard := 0, tokens := List.range 1000, current_position := 0 }

/-- Claim C1 (amended): whenever a `next_batch()` call advances
`current_position` so that the following read would exceed the active shard
(`current_position + B*T*num_processes + (B*T*num_processes + 1) > len(tokens)`),
the loader advances to shard `(current_shard+1) mod num_shards` and resets
`current_position` to `B*T*process_rank` at the end of that call — hence
before the next call slices its batch — so the call whose read would have
exceeded the old shard returns tokens from the start of the new shard at the
rank's base offset.  In particular, with `B=4, T=8, world_size=1` and
1000-token shards, the 32nd `next_batch()` call (the first whose read
`[992, 1025)` would exceed the 1000-token shard) returns tokens from the
start of the next shard. -/
theorem dataloader_wrap_policy :
    (∀ s : DataLoaderLite,
      s.tokens.length <
          s.current_position + s.B * s.T * s.num_processes
            + (s.B * s.T * s.num_processes + 1) →
      ((s.next_batch).2.current_shard = (s.current_shard + 1) % s.shards.length ∧
       (s.next_batch).2.current_position = s.B * s.T * s.process_rank ∧
       (s.next_batch).2.tokens
          = s.shards.getD ((s.current_shard + 1) % s.shards.length) []) ∧
      (s.B * s.T * s.process_rank + (s.B * s.T + 1)
          ≤ (s.shards.getD ((s.current_shard + 1) % s.shards.length) []).length →
        ∃ x y, ((s.next_batch).2.next_batch).1 = some (x, y) ∧
          ∀ i j, i < s.B → j < s.T →
            (x.getD i []).getD j 0
              = (s.shards.getD ((s.current_shard + 1) % s.shards.length) []).getD
                  (s.B * s.T * s.process_rank + (i * s.T + j)) 0)) ∧
    ((wrapLoader.stateAfter 31).current_shard = 1 ∧
     (wrapLoader.stateAfter 31).current_position = 0 ∧
     (wrapLoader.kthBatch 32).map (fun p => (p.1.getD 0 []).getD 0 0) = some 1000) := by
  constructor
  · intro s hw
    obtain ⟨hsh, hpos, htok⟩ := next_batch_wrap_state s hw
    obtain ⟨hB, hT, hr, -, -⟩ := next_batch_preserves_config s
    refine ⟨⟨hsh, hpos, htok⟩, ?_⟩
    intro hfit
    have hlen : (s.next_batch).2.current_position
        + ((s.next_batch).2.B * (s.next_batch).2.T + 1)
        ≤ (s.next_batch).2.tokens.length := by
      rw [hpos, htok, hB, hT]; exact hfit
    obtain ⟨x, y, hxy, -, -, -, -, hentries⟩ := next_batch_window _ hlen
    rw [hB, hT, hpos, htok] at hentries
    exact ⟨x, y, hxy, fun i j hi hj => (hentries i j hi hj).1⟩
  · refine ⟨by decide, by decide, by decide⟩

theorem dataloader_wrap_policy_witness :
    ((wrapLoader.stateAfter 30).tokens.length <
        (wrapLoader.stateAfter 30).current_position
          + (wrapLoader.stateAfter 30).B * (wrapLoader.stateAfter 30).T
              * (wrapLoader.stateAfter 30).num_processes
          + ((wrapLoader.stateAfter 30).B * (wrapLoader.stateAfter 30).T
              * (wrapLoader.stateAfter 30).num_processes + 1)) ∧
    (((wrapLoader.stateAfter 30).next_batch).2.current_shard
        = ((wrapLoader.stateAfter 30).current_shard + 1)
            % (wrapLoader.stateAfter 30).shards.length ∧
     ((wrapLoader.stateAfter 30).next_batch).2.current_position
        = (wrapLoader.stateAfter 30).B * (wrapLoader.stateAfter 30).T
            * (wrapLoader.stateAfter 30).process_rank ∧
     ((wrapLoader.stateAfter 30).next_batch).2.tokens
        = (wrapLoader.stateAfter 30).shards.getD
            (((wrapLoader.stateAfter 30).current_shard + 1)
              % (wrapLoader.stateAfter 30).shards.length) []) :=
  ⟨by decide, ((dataloader_wrap_policy.1 (wrapLoader.stateAfter 30) (by decide)).1)⟩

/-- Claim C1 fails as stated: in the spec scenario (`B=4, T=8, world_size=1`,
1000-token shards) the 126th `next_batch()` call does not return tokens from
the start of the next shard at the rank's base offset — after four wraps the
loader is back in shard 0 at position 32, and the call returns the token 32,
which is neither the first token of shard 0 (0) nor of shard 1 (1000). -/
theorem dataloader_wrap_call126_refuted :
    (wrapLoader.stateAfter 125).current_shard = 0 ∧
    (wrapLoader.stateAfter 125).current_position = 32 ∧
    (wrapLoader.kthBatch 126).map (fun p => (p.1.getD 0 []).getD 0 0) = some 32 ∧
    (wrapLoader.shards.getD 0 []).getD 0 0 = 0 ∧
    (wrapLoader.shards.getD 1 []).getD 0 0 = 1000 ∧
    (32 : ℕ) ≠ 0 ∧ (32 : ℕ) ≠ 1000 := by
  have hperiod : wrapLoader.stateAfter 62 = wrapLoader := by decide
  have h125 : wrapLoader.stateAfter 125 = wrapLoader.stateAfter 1 := by
    have he : (125 : ℕ) = 62 + (62 + 1) := by norm_num
    rw [he, stateAfter_add, hperiod, stateAfter_add, hperiod]
  have h126 : wrapLoader.kthBatch 126 = ((wrapLoader.stateAfter 1).next_batch).1 := by
    have he : (126 : ℕ) - 1 = 125 := by norm_num
    rw [DataLoaderLite.kthBatch, he, h125]
  rw [h125, h126]
  refine ⟨by decide, by decide, by decide, by decide, by decide, by decide, by decide⟩

/-! ### Claim C3: determinism of the feeder -/

/-- Claim C3: for fixed `(B, T, num_processes, process_rank)` and fixed shard
contents, two runs of `reset()` followed by `k` `next_batch()` calls produce
identical batch sequences (and identical final states): the feeder is a
deterministic function of its configuration and call count. -/
theorem dataloader_deterministic (s1 s2 : DataLoaderLite)
    (hB : s1.B = s2.B) (hT : s1.T = s2.T)
    (hrank : s1.process_rank = s2.process_rank)
    (hnum : s1.num_processes = s2.num_processes)
    (hshards : s1.shards = s2.shards) (k : ℕ) :
    (s1.reset).trace k = (s2.reset).trace k ∧
    (s1.reset).stateAfter k = (s2.reset).stateAfter k := by
  have hres : s1.reset = s2.reset := by
    cases s1
    cases s2
    simp_all [DataLoaderLite.reset]
  rw [hres]
  exact ⟨rfl, rfl⟩

/-- Two loaders sharing configuration and shards but caught in different
mid-stream states (different `current_position`): after `reset()`, their
batch streams coincide. -/
def runLoaderA : DataLoaderLite :=
  { B := 2, T := 3, process_rank := 0, num_processes := 1,
    shards := [List.range 40], current_shard := 0,
    tokens := List.range 40, current_position := 12 }

def runLoaderB : DataLoaderLite :=
  { B := 2, T := 3, process_rank := 0, num_processes := 1,
    shards := [List.range 40], current_shard := 0,
    tokens := List.range 40, current_position := 30 }

theorem dataloader_deterministic_witness :
    (runLoaderA.reset).trace 5 = (runLoaderB.reset).trace 5 ∧
    (runLoaderA.reset).stateAfter 5 = (runLoaderB.reset).stateAfter 5 :=
  dataloader_deterministic runLoaderA runLoaderB rfl rfl rfl rfl rfl 5

/-! ### Claim C4: construction (`DataLoaderLite.__init__`, gpt_model.py lines 228-245)

The Python `__init__` has signature `(self, B, T, process_rank,
num_processes)` — there is no `split` parameter, although both call sites
(lines 348-349) pass `split='train'` / `split='val'` (a `TypeError`).  Inside
the body the name `split` therefore resolves to the module-level import
`from numpy import split` (line 219): the value checked by
`assert split in ...` on line 233 is the numpy `split` function, not a
string. -/

inductive PyVal where
  | str (s : String)
  | func (name : String)
deriving DecidableEq

/-- The value the name `split` denotes inside `__init__`: the function
imported by `from numpy import split` (gpt_model.py line 219). -/
def splitGlobal : PyVal := PyVal.func "numpy.split"

/-- Substring test, modelling the Python expression `split in s` for strings. -/
def strContains (hay needle : String) : Bool :=
  (List.range (hay.length + 1)).any (fun i => needle.isPrefixOf (hay.drop i))

def insertSorted (x : String × List ℕ) :
    List (String × List ℕ) → List (String × List ℕ)
  | [] => [x]
  | y :: ys => if x.1 ≤ y.1 then x :: y :: ys else y :: insertSorted x ys

/-- Models Python `sorted(shards)`: sort the shard files by filename. -/
def sortByName : List (String × List ℕ) → List (String × List ℕ)
  | [] => []
  | x :: xs => insertSorted x (sortByName xs)

/-- `DataLoaderLite.__init__` (gpt_model.py lines 228-245) over a directory
listing of `(filename, tokens)` pairs.  Line 233 asserts
`split in {'train', 'val'}`; since `split` is the numpy function, the
membership test is false and the assertion fires before any shard is
examined.  The remaining body (filter filenames containing the split name,
sort, assert at least one shard, `reset`) is reachable only if `split` were
one of the two strings. -/
def DataLoaderLite.init (B T process_rank num_processes : ℕ)
    (dirListing : List (String × List ℕ)) : Except String DataLoaderLite :=
  match splitGlobal with
  | PyVal.str sp =>
    if sp = "train" ∨ sp = "val" then
      let shards := sortByName (dirListing.filter (fun f => strContains f.1 sp))
      if shards.length > 0 then
        Except.ok (DataLoaderLite.reset
          { B := B, T := T, process_rank := process_rank,
            num_processes := num_processes, shards := shards.map Prod.snd,
            current_shard := 0, tokens := [], current_position := 0 })
      else Except.error "AssertionError: no shards found in split"
    else Except.error "AssertionError: split not in train or val"
  | PyVal.func _ => Except.error "AssertionError: split not in train or val"

/-- Claim C4 fails on the code: constructing a `DataLoaderLite` always fails
with the line-233 assertion, whatever the directory contains — in particular
it fails even when shard files for the requested split exist, so construction
never succeeds and the no-shards check on line 242 is unreachable.  (At the
actual call sites, lines 348-349, the call fails even earlier: `__init__`
accepts no `split` keyword, a `TypeError`.) -/
theorem dataloader_init_always_fails (B T process_rank num_processes : ℕ)
    (dirListing : List (String × List ℕ)) :
    DataLoaderLite.init B T process_rank num_processes dirListing
      = Except.error "AssertionError: split not in train or val" :=
  rfl

/-! ## Learning-rate schedule (`get_lr`, gpt_model.py lines 367-383)

The schedule is a pure function of the step index over the real numbers;
`math.cos` and `math.pi` are the exact real cosine and pi.  The in-body
`assert 0 <= decay_ratio <= 1` (line 381) is modelled by returning `none`
when it would fire. -/

noncomputable def max_lr : ℝ := 6e-4

noncomputable def min_lr : ℝ := max_lr * 0.1

def warmup_steps : ℕ := 715

def max_steps : ℕ := 19073 * 4

noncomputable def decay_ratio (it : ℕ) : ℝ :=
  ((it : ℝ) - warmup_steps) / ((max_steps : ℝ) - warmup_steps)

open Classical in
noncomputable def get_lr (it : ℕ) : Option ℝ :=
  if it < warmup_steps then some (max_lr * ((it : ℝ) + 1) / warmup_steps)
  else if max_steps < it then some min_lr
  else if 0 ≤ decay_ratio it ∧ decay_ratio it ≤ 1 then
    some (min_lr + 0.5 * (1 + Real.cos (Real.pi * decay_ratio it)) * (max_lr - min_lr))
  else none

lemma decay_ratio_denom_pos : (0 : ℝ) < (max_steps : ℝ) - (warmup_steps : ℝ) := by
  norm_num [max_steps, warmup_steps]

lemma decay_ratio_bounds {it : ℕ} (h1 : warmup_steps ≤ it) (h2 : it ≤ max_steps) :
    0 ≤ decay_ratio it ∧ decay_ratio it ≤ 1 := by
  have hc1 : (warmup_steps : ℝ) ≤ (it : ℝ) := Nat.cast_le.2 h1
  have hc2 : (it : ℝ) ≤ (max_steps : ℝ) := Nat.cast_le.2 h2
  constructor
  · exact div_nonneg (by linarith) (le_of_lt decay_ratio_denom_pos)
  · rw [decay_ratio, div_le_one decay_ratio_denom_pos]
    linarith

lemma get_lr_cosine {it : ℕ} (h1 : warmup_steps ≤ it) (h2 : it ≤ max_steps) :
    get_lr it = some (min_lr
      + 0.5 * (1 + Real.cos (Real.pi * decay_ratio it)) * (max_lr - min_lr)) := by
  rw [get_lr, if_neg (by omega : ¬ it < warmup_steps),
    if_neg (by omega : ¬ max_steps < it), if_pos (decay_ratio_bounds h1 h2)]

/-- Claim C5: the learning-rate schedule is a pure function of the step index
with the three phases of the code — linear warmup `max_lr * (it+1)/warmup_steps`
for `it < warmup_steps`, the floor `min_lr = 0.1 * max_lr` for `it > max_steps`,
and in between the cosine interpolation over
`decay_ratio = (it - warmup_steps)/(max_steps - warmup_steps)`, whose
`0 ≤ decay_ratio ≤ 1` precondition is an assertion that never fires (and is
never clamped).  Consequently `lr 0 = max_lr/warmup_steps`,
`lr max_steps = min_lr`, and `lr` is exactly continuous at both phase
boundaries: `lr (warmup_steps - 1) = lr warmup_steps = max_lr` and
`lr (max_steps + 1) = lr max_steps = min_lr`. -/
theorem get_lr_spec :
    (∀ it : ℕ, it < warmup_steps →
      get_lr it = some (max_lr * ((it : ℝ) + 1) / warmup_steps)) ∧
    (∀ it : ℕ, max_steps < it → get_lr it = some min_lr) ∧
    (∀ it : ℕ, warmup_steps ≤ it → it ≤ max_steps →
      (0 ≤ decay_ratio it ∧ decay_ratio it ≤ 1) ∧
      get_lr it = some (min_lr
        + 0.5 * (1 + Real.cos (Real.pi * decay_ratio it)) * (max_lr - min_lr))) ∧
    min_lr = 0.1 * max_lr ∧
    get_lr 0 = some (max_lr / warmup_steps) ∧
    get_lr max_steps = some min_lr ∧
    get_lr (warmup_steps - 1) = some max_lr ∧
    get_lr warmup_steps = some max_lr ∧
    get_lr (max_steps + 1) = some min_lr := by
  have hwarm : ∀ it : ℕ, it < warmup_steps →
      get_lr it = some (max_lr * ((it : ℝ) + 1) / warmup_steps) := by
    intro it h
    rw [get_lr, if_pos h]
  have hfloor : ∀ it : ℕ, max_steps < it → get_lr it = some min_lr := by
    intro it h
    have hnw : ¬ it < warmup_steps := by
      simp only [warmup_steps, max_steps] at *
      omega
    rw [get_lr, if_neg hnw, if_pos h]
  refine ⟨hwarm, hfloor, ?_, ?_, ?_, ?_, ?_, ?_, ?_⟩
  · intro it h1 h2
    exact ⟨decay_ratio_bounds h1 h2, get_lr_cosine h1 h2⟩
  · rw [min_lr]
    ring
  · rw [hwarm 0 (by norm_num [warmup_steps])]
    norm_num
  · rw [get_lr_cosine (by norm_num [warmup_steps, max_steps]) (le_refl _)]
    have hr : decay_ratio max_steps = 1 :=
      div_self (ne_of_gt decay_ratio_denom_pos)
    rw [hr, mul_one, Real.cos_pi]
    norm_num
  · have he : warmup_steps - 1 = 714 := by norm_num [warmup_steps]
    rw [he, hwarm 714 (by norm_num [warmup_steps])]
    have : ((714 : ℕ) : ℝ) + 1 = (warmup_steps : ℝ) := by
      norm_num [warmup_steps]
    rw [this, mul_div_assoc, div_self (by norm_num [warmup_steps]), mul_one]
  · rw [get_lr_cosine (le_refl _) (by norm_num [warmup_steps, max_steps])]
    have hr : decay_ratio warmup_steps = 0 := by
      rw [decay_ratio, sub_self, zero_div]
    rw [hr, mul_zero, Real.cos_zero]
    congr 1
    ring
  · exact hfloor _ (by omega)

theorem get_lr_spec_witness :
    get_lr 3 = some (max_lr * ((3 : ℕ) + 1 : ℝ) / warmup_steps) ∧
    get_lr 80000 = some min_lr ∧
    ((0 ≤ decay_ratio 1000 ∧ decay_ratio 1000 ≤ 1) ∧
      get_lr 1000 = some (min_lr
        + 0.5 * (1 + Real.cos (Real.pi * decay_ratio 1000)) * (max_lr - min_lr))) :=
  ⟨get_lr_spec.1 3 (by norm_num [warmup_steps]),
   get_lr_spec.2.1 80000 (by norm_num [max_steps]),
   get_lr_spec.2.2.1 1000 (by norm_num [warmup_steps]) (by norm_num [max_steps])⟩

/-! ## Gradient-accumulation configuration (gpt_model.py lines 336-342) -/

namespace TrainScript

def total_batch_size : ℕ := 524288

def B : ℕ := 64

def T : ℕ := 1024

end TrainScript

/-- Lines 341-342: `assert total_batch_size % (B * T * ddp_world_size) == 0`
followed by `grad_accum_steps = total_batch_size // (B * T * ddp_world_size)`;
the assertion failure is modelled by `none`. -/
def grad_accum_steps (total_batch_size B T ddp_world_size : ℕ) : Option ℕ :=
  if total_batch_size % (B * T * ddp_world_size) = 0 then
    some (total_batch_size / (B * T * ddp_world_size))
  else none

/-- Claim C6: the startup check fails fast exactly when `total_batch_size` is
not divisible by `B * T * world_size`, and under the precondition the computed
`grad_accum_steps` satisfies `B * T * world_size * grad_accum_steps =
total_batch_size` exactly. -/
theorem grad_accum_steps_spec (total B T world : ℕ) :
    (total % (B * T * world) = 0 →
      ∃ g, grad_accum_steps total B T world = some g ∧ B * T * world * g = total) ∧
    (total % (B * T * world) ≠ 0 → grad_accum_steps total B T world = none) := by
  constructor
  · intro h
    refine ⟨total / (B * T * world), ?_, ?_⟩
    · rw [grad_accum_steps, if_pos h]
    · exact Nat.mul_div_cancel' (Nat.dvd_of_mod_eq_zero h)
  · intro h
    rw [grad_accum_steps, if_neg h]

theorem grad_accum_steps_spec_witness :
    ∃ g, grad_accum_steps TrainScript.total_batch_size TrainScript.B TrainScript.T 8
        = some g ∧
      TrainScript.B * TrainScript.T * 8 * g = TrainScript.total_batch_size :=
  (grad_accum_steps_spec TrainScript.total_batch_size TrainScript.B TrainScript.T 8).1
    (by decide)

/-! ## Micro-step loss accumulation (gpt_model.py lines 500-511)

Each micro-step computes a loss, scales it by `1 / grad_accum_steps`
(line 510) and adds it to `loss_accum` (line 511), which starts at `0.0`
(line 500).  The micro losses are modelled as exact rationals. -/

def loss_accum (grad_accum_steps : ℕ) (micro_losses : List ℚ) : ℚ :=
  micro_losses.foldl (fun acc loss => acc + loss / (grad_accum_steps : ℚ)) 0

lemma foldl_add_div (d : ℚ) (l : List ℚ) (c : ℚ) :
    l.foldl (fun acc x => acc + x / d) c = c + l.sum / d := by
  induction l generalizing c with
  | nil => simp
  | cons x xs ih =>
    simp only [List.foldl_cons, List.sum_cons, ih, add_div]
    ring

/-- Claim C7: over one training step, summing the `grad_accum_steps` micro
losses each scaled by `1/grad_accum_steps` yields exactly the arithmetic mean
of the unscaled micro losses — the reported `loss_accum` is the mean
micro-batch loss of the equivalent single large batch. -/
theorem loss_accum_mean_spec (n : ℕ) (micro_losses : List ℚ)
    (hlen : micro_losses.length = n) (_hpos : 0 < n) :
    loss_accum n micro_losses = micro_losses.sum / (micro_losses.length : ℚ) := by
  rw [loss_accum, foldl_add_div, zero_add, hlen]

theorem loss_accum_mean_spec_witness :
    loss_accum 4 [1, 2, 3, 6]
      = ([1, 2, 3, 6] : List ℚ).sum / (([1, 2, 3, 6] : List ℚ).length : ℚ) :=
  loss_accum_mean_spec 4 [1, 2, 3, 6] (by decide) (by decide)

/-! ## DDP gradient-synchronization flag (gpt_model.py lines 512-513)

Modelled from the spec: the distributed wrapper collaborator defers
backward-pass gradient synchronization until explicitly signaled
(spec section 4.2).  The signal is the wrapper's boolean attribute
`require_backward_grad_sync` (the control flag of
`torch.nn.parallel.DistributedDataParallel`), which is `True` — synchronize
on backward — on a freshly wrapped model unless set to `False`.  Python
attribute assignment on any other name creates an unrelated attribute and
leaves the flag untouched. -/

structure DDPModel where
  require_backward_grad_sync : Bool
  extra_attrs : List (String × Bool)
deriving DecidableEq

/-- Python `setattr` on the wrapper: writing the control flag when the name
matches, otherwise storing an unrelated attribute. -/
def DDPModel.setattr (m : DDPModel) (name : String) (v : Bool) : DDPModel :=
  if name = "require_backward_grad_sync" then { m with require_backward_grad_sync := v }
  else { m with extra_attrs := (name, v) :: m.extra_attrs }

/-- A freshly wrapped model: the wrapper synchronizes on every backward. -/
def DDPModel.wrap : DDPModel := { require_backward_grad_sync := true, extra_attrs := [] }

/-- Whether the next backward pass triggers the collective gradient reduction. -/
def DDPModel.syncsOnBackward (m : DDPModel) : Bool := m.require_backward_grad_sync

/-- The per-micro-step assignment the training loop performs in DDP mode
(gpt_model.py line 513):
`model.required_backward_grad_sync = (micro_step == grad_accum_steps - 1)`.
The assigned attribute name `required_backward_grad_sync` differs from the
flag the wrapper reads. -/
def microStepSyncAssign (m : DDPModel) (micro_step grad_accum_steps : ℕ) : DDPModel :=
  m.setattr "required_backward_grad_sync" (decide (micro_step = grad_accum_steps - 1))

/-- Claim C8 fails on the code: the line-513 assignment writes the misspelled
attribute `required_backward_grad_sync`, so it never changes the wrapper's
`require_backward_grad_sync` control flag; on a freshly wrapped model the
backward pass still triggers the collective reduction on micro-step 0 of a
2-step accumulation window, which is not the last micro-step. -/
theorem ddp_sync_not_suppressed :
    (∀ (m : DDPModel) (micro_step n : ℕ),
      (microStepSyncAssign m micro_step n).syncsOnBackward = m.syncsOnBackward) ∧
    (microStepSyncAssign DDPModel.wrap 0 2).syncsOnBackward = true ∧
    (0 : ℕ) ≠ 2 - 1 := by
  refine ⟨?_, by decide, by decide⟩
  intro m micro n
  rw [microStepSyncAssign, DDPModel.setattr,
    if_neg (by decide : ¬ ("required_backward_grad_sync" = "require_backward_grad_sync"))]
  rfl

/-! ## HellaSwag scoring helper (`get_most_likely_row`, gpt_model.py lines 272-289)

The logits tensor is `(rows, positions, vocab)`, with one row per candidate
completion.  The per-position cross-entropy kernel
`F.cross_entropy(..., reduction='none')` maps one logits vector and one
target token id to a loss; it is abstracted as a parameter `ce`, and losses
are exact rationals.  The flatten/`view` round trip of lines 276-279 is the
row-wise application of `ce` at each shifted position. -/

abbrev Vec := List ℚ

/-- `shift_logits = logits[..., :-1, :]`, `shift_tokens = tokens[..., 1:]`,
`shift_losses[r][p] = ce(shift_logits[r][p], shift_tokens[r][p])`
(lines 274-279). -/
def shiftLosses (ce : Vec → ℕ → ℚ) (tokens : List (List ℕ))
    (logits : List (List Vec)) : List (List ℚ) :=
  List.zipWith (fun lrow trow => List.zipWith ce lrow trow)
    (logits.map List.dropLast) (tokens.map (fun r => r.drop 1))

/-- Lines 281-285: shift the mask, zero the losses outside the completion
region, sum each row and divide by the number of mask ones in that row. -/
def avgLosses (ce : Vec → ℕ → ℚ) (tokens mask : List (List ℕ))
    (logits : List (List Vec)) : List ℚ :=
  let shift_mask := mask.map (fun r => r.drop 1)
  let masked_shift_losses := List.zipWith
    (fun lrow mrow => List.zipWith (fun l (m : ℕ) => l * (m : ℚ)) lrow mrow)
    (shiftLosses ce tokens logits) shift_mask
  let sum_loss := masked_shift_losses.map List.sum
  let mask_count := shift_mask.map (fun r => ((r.sum : ℕ) : ℚ))
  List.zipWith (fun a b => a / b) sum_loss mask_count

/-- `torch.argmin` on a vector of row losses: index of the (first) minimum. -/
def argminIdx : List ℚ → ℕ
  | [] => 0
  | [_] => 0
  | x :: y :: ys =>
    if (y :: ys).getD (argminIdx (y :: ys)) 0 < x then argminIdx (y :: ys) + 1 else 0

/-- `get_most_likely_row` (lines 272-289): `avg_loss.argmin().item()`. -/
def get_most_likely_row (ce : Vec → ℕ → ℚ) (tokens mask : List (List ℕ))
    (logits : List (List Vec)) : ℕ :=
  argminIdx (avgLosses ce tokens mask logits)

lemma argminIdx_lt_length : ∀ (l : List ℚ), l ≠ [] → argminIdx l < l.length := by
  intro l
  induction l with
  | nil => intro h; exact absurd rfl h
  | cons x rest ih =>
    intro _
    cases rest with
    | nil => simp [argminIdx]
    | cons y ys =>
      simp only [argminIdx]
      split
      · have := ih (by simp)
        simp only [List.length_cons] at *
        omega
      · simp

lemma argminIdx_min : ∀ (l : List ℚ) (i : ℕ), i < l.length →
    l.getD (argminIdx l) 0 ≤ l.getD i 0 := by
  intro l
  induction l with
  | nil => intro i hi; simp at hi
  | cons x rest ih =>
    intro i hi
    cases rest with
    | nil =>
      have h0 : i = 0 := by
        simp only [List.length_cons, List.length_nil] at hi
        omega
      subst h0
      simp [argminIdx]
    | cons y ys =>
      simp only [argminIdx]
      split
      next hlt =>
        cases i with
        | zero => simpa using le_of_lt hlt
        | succ k =>
          have hk : k < (y :: ys).length := by
            simpa using hi
          simpa using ih k hk
      next hge =>
        have hx : x ≤ (y :: ys).getD (argminIdx (y :: ys)) 0 := le_of_not_lt hge
        cases i with
        | zero => simp
        | succ k =>
          have hk : k < (y :: ys).length := by
            simpa using hi
          simpa using le_trans hx (ih k hk)

lemma avgLosses_length (ce : Vec → ℕ → ℚ) (tokens mask : List (List ℕ))
    (logits : List (List Vec))
    (hmask : mask.length = tokens.length) (hlog : logits.length = tokens.length) :
    (avgLosses ce tokens mask logits).length = tokens.length := by
  simp only [avgLosses, shiftLosses, List.length_zipWith, List.length_map, hmask, hlog]
  omega

/-- Claim C9: `get_most_likely_row` returns an index of a candidate row
minimizing the average next-token cross-entropy over the masked completion
region, the average being computed exactly as in the code: shift tokens and
mask by one position, apply the per-position loss, zero unmasked positions,
sum over each row and divide by the row's count of mask ones. -/
theorem get_most_likely_row_spec (ce : Vec → ℕ → ℚ)
    (tokens mask : List (List ℕ)) (logits : List (List Vec))
    (hmask : mask.length = tokens.length) (hlog : logits.length = tokens.length)
    (hne : tokens ≠ []) :
    get_most_likely_row ce tokens mask logits < tokens.length ∧
    ∀ i < tokens.length,
      (avgLosses ce tokens mask logits).getD
          (get_most_likely_row ce tokens mask logits) 0
        ≤ (avgLosses ce tokens mask logits).getD i 0 := by
  have hlen := avgLosses_length ce tokens mask logits hmask hlog
  have hnil : avgLosses ce tokens mask logits ≠ [] := by
    intro h
    rw [h] at hlen
    exact hne (List.length_eq_zero.1 hlen.symm)
  constructor
  · rw [get_most_likely_row, ← hlen]
    exact argminIdx_lt_length _ hnil
  · intro i hi
    rw [get_most_likely_row]
    exact argminIdx_min _ i (by rw [hlen]; exact hi)

/-- The hand-constructed benchmark example: four candidate rows sharing the
prompt `[0, 9]`, masks selecting the last two positions, and a loss kernel
under which row 1's completion `[1, 1]` is trivially cheapest. -/
def exTokens : List (List ℕ) :=
  [[0, 9, 5, 5], [0, 9, 1, 1], [0, 9, 7, 7], [0, 9, 5, 6]]

def exMask : List (List ℕ) :=
  [[0, 0, 1, 1], [0, 0, 1, 1], [0, 0, 1, 1], [0, 0, 1, 1]]

def exLogits : List (List Vec) :=
  List.replicate 4 (List.replicate 4 [0])

def exCe : Vec → ℕ → ℚ := fun _ t => (t : ℚ)

theorem get_most_likely_row_spec_witness :
    get_most_likely_row exCe exTokens exMask exLogits = 1 ∧
    (get_most_likely_row exCe exTokens exMask exLogits < exTokens.length ∧
      ∀ i < exTokens.length,
        (avgLosses exCe exTokens exMask exLogits).getD
            (get_most_likely_row exCe exTokens exMask exLogits) 0
          ≤ (avgLosses exCe exTokens exMask exLogits).getD i 0) :=
  ⟨by norm_num [get_most_likely_row, avgLosses, shiftLosses, exTokens, exMask,
      exLogits, exCe, List.replicate, argminIdx, List.getD],
   get_most_likely_row_spec exCe exTokens exMask exLogits rfl rfl (by decide)⟩

/-! ## GPT forward pass (gpt_model.py lines 12-137, train_gpt2.py lines 9-106)

Float tensors are lists of exact rationals.  The three transcendental scalar
kernels of the network — `exp` (inside softmax), the GELU activation, and
`1/sqrt(.)` (layer-norm normalization and the attention scale) — are
abstracted as parameters; everything else (projections, residual sums,
masked attention averaging, embedding lookups) is the code's arithmetic. -/

structure ScalarKernels where
  exp : ℚ → ℚ
  gelu : ℚ → ℚ
  invSqrt : ℚ → ℚ

abbrev Mat := List Vec

def dotProd (a b : Vec) : ℚ := (List.zipWith (fun x y => x * y) a b).sum

/-- `nn.Linear`: `y = W x + b`, `W` stored as `(out_features, in_features)`. -/
def linear (W : Mat) (b : Vec) (x : Vec) : Vec :=
  List.zipWith (fun row bi => dotProd row x + bi) W b

/-- `nn.Linear(..., bias=False)` — the `lm_head`. -/
def linearNoBias (W : Mat) (x : Vec) : Vec := W.map (fun row => dotProd row x)

def addVec (a b : Vec) : Vec := List.zipWith (fun x y => x + y) a b

def matAdd (a b : Mat) : Mat := List.zipWith addVec a b

/-- `nn.LayerNorm(n_embd)` at one position; `invSqrt` abstracts
`1/sqrt(variance + eps)` with the default `eps = 1e-5`. -/
def layerNorm (K : ScalarKernels) (g b x : Vec) : Vec :=
  let n : ℚ := (x.length : ℚ)
  let mean := x.sum / n
  let variance := (x.map (fun xi => (xi - mean) ^ 2)).sum / n
  let scale := K.invSqrt (variance + 1 / 100000)
  List.zipWith (fun xi gb => (xi - mean) * scale * gb.1 + gb.2) x (g.zip b)

def softmax (K : ScalarKernels) (v : Vec) : Vec :=
  let e := v.map K.exp
  e.map (fun x => x / e.sum)

/-- One attention head on a `T × hs` query/key/value triple with causal
masking (the masked-softmax attention of train_gpt2.py lines 34-38, equally
`F.scaled_dot_product_attention(..., is_causal=True)` of gpt_model.py
line 46): position `t` averages value rows `0..t` with softmax weights of
the scaled query-key dot products. -/
def causalHead (K : ScalarKernels) (scale : ℚ) (hs : ℕ) (q k v : Mat) : Mat :=
  (List.range q.length).map (fun t =>
    let w := softmax K
      ((k.take (t + 1)).map (fun kr => dotProd (q.getD t []) kr * scale))
    (List.zipWith (fun wi vr => vr.map (fun x => wi * x)) w (v.take (t + 1))).foldl
      addVec (List.replicate hs 0))

structure AttnWeights where
  c_attn_w : Mat
  c_attn_b : Vec
  c_proj_w : Mat
  c_proj_b : Vec

/-- `CasualSelfAttention.forward` on one sequence (`T × n_embd`): batched
qkv projection, split into `n_head` slices of size `hs = n_embd / n_head`
(the `view`/`transpose` pair), causal attention per head, heads re-assembled
side by side, output projection.  The scale is `1/sqrt(hs)`. -/
def attnForward (K : ScalarKernels) (n_head n_embd : ℕ) (aw : AttnWeights)
    (x : Mat) : Mat :=
  let hs := n_embd / n_head
  let qkv := x.map (linear aw.c_attn_w aw.c_attn_b)
  let q := qkv.map (fun r => r.take n_embd)
  let k := qkv.map (fun r => (r.drop n_embd).take n_embd)
  let v := qkv.map (fun r => (r.drop (2 * n_embd)).take n_embd)
  let headSlice := fun (m : Mat) (h : ℕ) => m.map (fun r => (r.drop (h * hs)).take hs)
  let heads := (List.range n_head).map (fun h =>
    causalHead K (K.invSqrt (hs : ℚ)) hs (headSlice q h) (headSlice k h) (headSlice v h))
  let y := (List.range x.length).map (fun t => (heads.map (fun hm => hm.getD t [])).flatten)
  y.map (linear aw.c_proj_w aw.c_proj_b)

structure MLPWeights where
  c_fc_w : Mat
  c_fc_b : Vec
  c_proj_w : Mat
  c_proj_b : Vec

/-- `MLP.forward`: `c_proj(gelu(c_fc(x)))` per position. -/
def mlpForward (K : ScalarKernels) (mw : MLPWeights) (x : Mat) : Mat :=
  x.map (fun r => linear mw.c_proj_w mw.c_proj_b ((linear mw.c_fc_w mw.c_fc_b r).map K.gelu))

structure BlockWeights where
  ln_1_g : Vec
  ln_1_b : Vec
  attn : AttnWeights
  ln_2_g : Vec
  ln_2_b : Vec
  mlp : MLPWeights

/-- `Block.forward`: `x = x + attn(ln_1(x))`, then `x = x + mlp(ln_2(x))`. -/
def blockForward (K : ScalarKernels) (n_head n_embd : ℕ) (bw : BlockWeights)
    (x : Mat) : Mat :=
  let x1 := matAdd x (attnForward K n_head n_embd bw.attn
    (x.map (layerNorm K bw.ln_1_g bw.ln_1_b)))
  matAdd x1 (mlpForward K bw.mlp (x1.map (layerNorm K bw.ln_2_g bw.ln_2_b)))

structure GPTConfig where
  block_size : ℕ
  vocab_size : ℕ
  n_layer : ℕ
  n_head : ℕ
  n_embd : ℕ

structure GPTWeights where
  wte : Mat
  wpe : Mat
  h : List BlockWeights
  ln_f_g : Vec
  ln_f_b : Vec
  lm_head_w : Mat

/-- One batch row of `GPT.forward`: token embeddings plus the first `T`
position embeddings, the `n_layer` blocks in order, the final layer norm and
the `lm_head` projection to vocabulary logits. -/
def gptRow (K : ScalarKernels) (cfg : GPTConfig) (w : GPTWeights) (T : ℕ)
    (row : List ℕ) : Mat :=
  let pos_emb := w.wpe.take T
  let tok_emb := row.map (fun t => w.wte.getD t [])
  let x0 := matAdd tok_emb pos_emb
  let xh := w.h.foldl (fun acc bw => blockForward K cfg.n_head cfg.n_embd bw acc) x0
  (xh.map (layerNorm K w.ln_f_g w.ln_f_b)).map (linearNoBias w.lm_head_w)

/-- `GPT.forward` (gpt_model.py lines 119-137 with `targets=None`,
train_gpt2.py lines 91-106) on a `(B, T)` token tensor: the line-122 assert
`T <= block_size` is modelled by the first error; an out-of-range token id,
which makes the `wte` embedding lookup raise, by the second. -/
def gptForward (K : ScalarKernels) (cfg : GPTConfig) (w : GPTWeights)
    (idx : List (List ℕ)) : Except String (List Mat) :=
  let T := (idx.headD []).length
  if cfg.block_size < T then
    Except.error "AssertionError: cannot forward, sequence length exceeds block size"
  else if idx.all (fun row => row.all (fun t => decide (t < cfg.vocab_size))) then
    Except.ok (idx.map (gptRow K cfg w T))
  else
    Except.error "IndexError: token id out of range in wte lookup"

/-- Well-formedness of the parameter tensors, as `GPT.__init__` builds them. -/
def MatWF (m : Mat) (rows cols : ℕ) : Prop :=
  m.length = rows ∧ ∀ r ∈ m, r.length = cols

def GPTWeights.WF (cfg : GPTConfig) (w : GPTWeights) : Prop :=
  MatWF w.wte cfg.vocab_size cfg.n_embd ∧
  MatWF w.wpe cfg.block_size cfg.n_embd ∧
  w.h.length = cfg.n_layer ∧
  w.ln_f_g.length = cfg.n_embd ∧ w.ln_f_b.length = cfg.n_embd ∧
  MatWF w.lm_head_w cfg.vocab_size cfg.n_embd

lemma length_matAdd (a b : Mat) : (matAdd a b).length = min a.length b.length :=
  List.length_zipWith _ _ _

lemma attnForward_length (K : ScalarKernels) (nh C : ℕ) (aw : AttnWeights) (x : Mat) :
    (attnForward K nh C aw x).length = x.length := by
  simp [attnForward]

lemma mlpForward_length (K : ScalarKernels) (mw : MLPWeights) (x : Mat) :
    (mlpForward K mw x).length = x.length := by
  simp [mlpForward]

lemma blockForward_length (K : ScalarKernels) (nh C : ℕ) (bw : BlockWeights) (x : Mat) :
    (blockForward K nh C bw x).length = x.length := by
  simp [blockForward, length_matAdd, attnForward_length, mlpForward_length]

lemma foldlBlocks_length (K : ScalarKernels) (nh C : ℕ) (blocks : List BlockWeights) :
    ∀ x : Mat, (blocks.foldl (fun acc bw => blockForward K nh C bw acc) x).length
      = x.length := by
  induction blocks with
  | nil => intro x; rfl
  | cons bw rest ih =>
    intro x
    rw [List.foldl_cons, ih, blockForward_length]

lemma gptRow_shape (K : ScalarKernels) (cfg : GPTConfig) (w : GPTWeights)
    (T : ℕ) (row : List ℕ) (hrow : row.length = T) (hbs : T ≤ cfg.block_size)
    (hwpe : w.wpe.length = cfg.block_size)
    (hlm : w.lm_head_w.length = cfg.vocab_size) :
    (gptRow K cfg w T row).length = T ∧
    ∀ lr ∈ gptRow K cfg w T row, lr.length = cfg.vocab_size := by
  constructor
  · simp only [gptRow, List.length_map, foldlBlocks_length, length_matAdd,
      List.length_take, hrow, hwpe]
    omega
  · intro lr hlr
    simp only [gptRow, List.mem_map] at hlr
    obtain ⟨v, -, rfl⟩ := hlr
    rw [linearNoBias, List.length_map, hlm]

/-- Claim C10: `GPT.forward` rejects, via the line-122 assertion, every token
tensor whose sequence length exceeds `config.block_size`; and on every
`(B, T)` token tensor with `T ≤ block_size` and in-vocabulary token ids it
returns logits of shape `(B, T, vocab_size)`. -/
theorem gpt_forward_spec (K : ScalarKernels) (cfg : GPTConfig) (w : GPTWeights)
    (idx : List (List ℕ)) (T : ℕ) (hWF : GPTWeights.WF cfg w)
    (hne : idx ≠ []) (hrows : ∀ r ∈ idx, r.length = T) :
    (cfg.block_size < T → gptForward K cfg w idx
        = Except.error "AssertionError: cannot forward, sequence length exceeds block size") ∧
    (T ≤ cfg.block_size → (∀ r ∈ idx, ∀ t ∈ r, t < cfg.vocab_size) →
      gptForward K cfg w idx = Except.ok (idx.map (gptRow K cfg w T)) ∧
      (idx.map (gptRow K cfg w T)).length = idx.length ∧
      ∀ m ∈ idx.map (gptRow K cfg w T),
        m.length = T ∧ ∀ lr ∈ m, lr.length = cfg.vocab_size) := by
  have hT : (idx.headD []).length = T := by
    cases idx with
    | nil => exact absurd rfl hne
    | cons r rest => exact hrows r (List.mem_cons_self r rest)
  constructor
  · intro hgt
    simp only [gptForward, hT]
    rw [if_pos hgt]
  · intro hle htok
    have hall : idx.all (fun row => row.all (fun t => decide (t < cfg.vocab_size))) = true := by
      rw [List.all_eq_true]
      intro r hr
      rw [List.all_eq_true]
      intro t ht
      exact decide_eq_true (htok r hr t ht)
    refine ⟨?_, List.length_map _ _, ?_⟩
    · simp only [gptForward, hT]
      rw [if_neg (not_lt.2 hle), if_pos hall]
    · intro m hm
      obtain ⟨row, hrowmem, rfl⟩ := List.mem_map.1 hm
      exact gptRow_shape K cfg w T row (hrows row hrowmem) hle hWF.2.1.1 hWF.2.2.2.2.2.1

/-- A concrete miniature model: `block_size = 2`, `vocab_size = 2`,
one single-head block over a 1-dimensional embedding. -/
def tinyConfig : GPTConfig :=
  { block_size := 2, vocab_size := 2, n_layer := 1, n_head := 1, n_embd := 1 }

def tinyKernels : ScalarKernels :=
  { exp := fun _ => 1, gelu := fun q => q, invSqrt := fun _ => 1 }

def tinyWeights : GPTWeights :=
  { wte := [[0], [1]]
    wpe := [[0], [0]]
    h := [{ ln_1_g := [1], ln_1_b := [0]
            attn := { c_attn_w := [[1], [1], [1]], c_attn_b := [0, 0, 0]
                      c_proj_w := [[1]], c_proj_b := [0] }
            ln_2_g := [1], ln_2_b := [0]
            mlp := { c_fc_w := [[1], [1], [1], [1]], c_fc_b := [0, 0, 0, 0]
                     c_proj_w := [[1, 1, 1, 1]], c_proj_b := [0] } }]
    ln_f_g := [1], ln_f_b := [0]
    lm_head_w := [[1], [0]] }

theorem gpt_forward_spec_witness :
    (gptForward tinyKernels tinyConfig tinyWeights [[0, 1]]
        = Except.ok ([[0, 1]].map (gptRow tinyKernels tinyConfig tinyWeights 2)) ∧
      ([[0, 1]].map (gptRow tinyKernels tinyConfig tinyWeights 2)).length
          = ([[0, 1]] : List (List ℕ)).length ∧
      ∀ m ∈ [[0, 1]].map (gptRow tinyKernels tinyConfig tinyWeights 2),
        m.length = 2 ∧ ∀ lr ∈ m, lr.length = tinyConfig.vocab_size) ∧
    gptForward tinyKernels tinyConfig tinyWeights [[0, 1, 0]]
        = Except.error "AssertionError: cannot forward, sequence length exceeds block size" :=
  ⟨(gpt_forward_spec tinyKernels tinyConfig tinyWeights [[0, 1]] 2
      (by unfold GPTWeights.WF MatWF; decide) (by decide) (by decide)).2
      (by decide) (by decide),
   (gpt_forward_spec tinyKernels tinyConfig tinyWeights [[0, 1, 0]] 3
      (by unfold GPTWeights.WF MatWF; decide) (by decide) (by decide)).1 (by decide)⟩
